import Mathlib

/-!
Shallow embedding of `autoimpute/utils/patterns.py` (missing-data pattern
statistics) and proofs of the specification's claims about it.

A dataset enters every statistic only through its missingness indicator
(the `_is_null` collaborator returns a same-shaped boolean matrix, true =
missing), so datasets are modelled directly as boolean matrices
`Fin n → Fin p → Bool`.  Integer counts are `ℕ`; floating-point results of
the coefficient formulas are modelled as exact rationals extended with a
NaN element (`RVal`), which is faithful here because every division in the
source has a nonnegative integer numerator bounded by its denominator, so
numpy produces either an exact small rational or NaN (the 0/0 case).
-/

namespace Autoimpute

/-- Missingness indicator matrix: `M i j = true` iff row `i` is missing
variable `j`.  This is `_is_null(data)` in the source (spec: the
Missingness Extractor returns a same-shaped boolean matrix, true means
missing). -/
abbrev MissMatrix (n p : ℕ) := Fin n → Fin p → Bool

/-- Observed indicator as 0/1 integers: `r = int_ln(_is_null(data))` in
`md_pairs` (patterns.py line 19), i.e. 1 where observed, 0 where missing. -/
def obsInd {n p : ℕ} (M : MissMatrix n p) (i : Fin n) (j : Fin p) : ℕ :=
  if M i j then 0 else 1

/-- Missing indicator as 0/1 integers: `int_ln(r)` in `md_pairs`, i.e. 1
where missing, 0 where observed. -/
def misInd {n p : ℕ} (M : MissMatrix n p) (i : Fin n) (j : Fin p) : ℕ :=
  if M i j then 1 else 0

/-- `rr = np.matmul(r.T, r)` (patterns.py line 20): `rr[j,k]` counts rows
observed in both `j` and `k`. -/
def rr {n p : ℕ} (M : MissMatrix n p) (j k : Fin p) : ℕ :=
  ∑ i, obsInd M i j * obsInd M i k

/-- `mm = np.matmul(int_ln(r).T, int_ln(r))` (line 21): rows missing in both. -/
def mm {n p : ℕ} (M : MissMatrix n p) (j k : Fin p) : ℕ :=
  ∑ i, misInd M i j * misInd M i k

/-- `mr = np.matmul(int_ln(r).T, r)` (line 22): rows missing in `j`,
observed in `k`. -/
def mr {n p : ℕ} (M : MissMatrix n p) (j k : Fin p) : ℕ :=
  ∑ i, misInd M i j * obsInd M i k

/-- `rm = np.matmul(r.T, int_ln(r))` (line 23): rows observed in `j`,
missing in `k`. -/
def rm {n p : ℕ} (M : MissMatrix n p) (j k : Fin p) : ℕ :=
  ∑ i, obsInd M i j * misInd M i k

/-- The four pair matrices bundled the way `md_pairs` returns them
(rr, rm, mr, mm). -/
def md_pairs {n p : ℕ} (M : MissMatrix n p) :
    (Fin p → Fin p → ℕ) × (Fin p → Fin p → ℕ) × (Fin p → Fin p → ℕ) ×
      (Fin p → Fin p → ℕ) :=
  (rr M, rm M, mr M, mm M)

/-- Result of a numpy floating-point division in this module: either a NaN
or an exact rational value. -/
inductive RVal : Type where
  | nan : RVal
  | val : ℚ → RVal
deriving DecidableEq

/-- Division of two nonnegative integer statistics as numpy performs it
under `np.errstate(divide="ignore", invalid="ignore")`.  In every use in
this module the numerator is at most the denominator (proved where needed),
so a zero denominator always means the 0/0 case, which numpy maps to NaN. -/
def npdiv (a b : ℕ) : RVal :=
  if b = 0 then RVal.nan else RVal.val ((a : ℚ) / (b : ℚ))

/-- Division of an exact rational partial sum by an integer count, as in
`flux`'s `row_mean`; the denominator `p - 1` is nonzero for every validated
dataset (p ≥ 2). -/
def npdivQ (s : ℚ) (b : ℕ) : RVal :=
  if b = 0 then RVal.nan else RVal.val (s / (b : ℚ))

/-- Contribution of one matrix entry to `np.nansum`: NaN counts as zero. -/
def nanToZero : RVal → ℚ
  | RVal.nan => 0
  | RVal.val q => q

/-- `_inbound`: `mr / (mr + mm)`, element-wise (patterns.py line 53). -/
def inbound {n p : ℕ} (M : MissMatrix n p) (j k : Fin p) : RVal :=
  npdiv (mr M j k) (mr M j k + mm M j k)

/-- `_outbound`: `rm / (rm + rr)`, element-wise (line 57). -/
def outbound {n p : ℕ} (M : MissMatrix n p) (j k : Fin p) : RVal :=
  npdiv (rm M j k) (rm M j k + rr M j k)

/-- Numerator of `_influx`: `np.nansum(pairs["mr"], axis=1)` (line 61); the
entries are integers, so nansum is a plain row sum. -/
def influxNum {n p : ℕ} (M : MissMatrix n p) (j : Fin p) : ℕ :=
  ∑ k, mr M j k

/-- Denominator of `_influx`: `np.nansum(pairs["mr"] + pairs["rr"], axis=1)`
(line 62). -/
def influxDenom {n p : ℕ} (M : MissMatrix n p) (j : Fin p) : ℕ :=
  ∑ k, (mr M j k + rr M j k)

/-- `_influx`: row-sum(mr) / row-sum(mr + rr) (line 63). -/
def influx {n p : ℕ} (M : MissMatrix n p) (j : Fin p) : RVal :=
  npdiv (influxNum M j) (influxDenom M j)

/-- Numerator of `_outflux`: `np.nansum(pairs["rm"], axis=1)` (line 67). -/
def outfluxNum {n p : ℕ} (M : MissMatrix n p) (j : Fin p) : ℕ :=
  ∑ k, rm M j k

/-- Denominator of `_outflux`: `np.nansum(pairs["rm"] + pairs["mm"], axis=1)`
(line 68). -/
def outfluxDenom {n p : ℕ} (M : MissMatrix n p) (j : Fin p) : ℕ :=
  ∑ k, (rm M j k + mm M j k)

/-- `_outflux`: row-sum(rm) / row-sum(rm + mm) (line 69). -/
def outflux {n p : ℕ} (M : MissMatrix n p) (j : Fin p) : RVal :=
  npdiv (outfluxNum M j) (outfluxDenom M j)

/- Auxiliary lemmas on the indicators. -/

theorem obsInd_add_misInd {n p : ℕ} (M : MissMatrix n p) (i : Fin n)
    (j : Fin p) : obsInd M i j + misInd M i j = 1 := by
  unfold obsInd misInd
  cases M i j <;> simp

theorem misInd_mul_obsInd_self {n p : ℕ} (M : MissMatrix n p) (i : Fin n)
    (j : Fin p) : misInd M i j * obsInd M i j = 0 := by
  unfold obsInd misInd
  cases M i j <;> simp

/-- C1: for every dataset the four matrices of `md_pairs` satisfy, at every
entry (j,k), `rr + rm + mr + mm = n` (the row count), and `mr` is the
matrix transpose of `rm`. -/
theorem md_pairs_sum_and_transpose {n p : ℕ} (M : MissMatrix n p)
    (j k : Fin p) :
    rr M j k + rm M j k + mr M j k + mm M j k = n ∧ mr M j k = rm M k j := by
  constructor
  · have hterm : ∀ i : Fin n,
        obsInd M i j * obsInd M i k + obsInd M i j * misInd M i k +
          misInd M i j * obsInd M i k + misInd M i j * misInd M i k = 1 := by
      intro i
      have := obsInd_add_misInd M i j
      have := obsInd_add_misInd M i k
      unfold obsInd misInd
      cases M i j <;> cases M i k <;> simp
    have hsum : rr M j k + rm M j k + mr M j k + mm M j k =
        ∑ i : Fin n,
          (obsInd M i j * obsInd M i k + obsInd M i j * misInd M i k +
            misInd M i j * obsInd M i k + misInd M i j * misInd M i k) := by
      unfold rr rm mr mm
      rw [← Finset.sum_add_distrib, ← Finset.sum_add_distrib,
        ← Finset.sum_add_distrib]
    rw [hsum]
    simp [hterm]
  · unfold mr rm
    exact Finset.sum_congr rfl fun i _ => mul_comm _ _

/- Embedding of `md_pattern` (patterns.py lines 29-49). -/

/-- Per-column missing totals: `nmis = np.sum(r, axis=0)` on the boolean
missing indicator (line 39; the code's local `r` there is `_is_null(data)`,
true = missing). -/
def nmisCol {n p : ℕ} (M : MissMatrix n p) (j : Fin p) : ℕ :=
  ∑ i, misInd M i j

/-- Column order produced by `np.argsort(nmis)` (line 40): ascending
per-column missing total.  numpy leaves tie order to the sort kind; on the
short arrays involved its introsort falls back to a stable insertion sort,
so ties keep original column order, which the key `(nmisCol j, j)` below
realises as the unique list sorted by that tie-free key. -/
def colOrder {n p : ℕ} (M : MissMatrix n p) : List (Fin p) :=
  List.insertionSort
    (fun a b => nmisCol M a < nmisCol M b ∨ (nmisCol M a = nmisCol M b ∧ a ≤ b))
    (List.finRange p)

/-- Missingness pattern of row `i` after the column reorder: the row of
`r[:, np.argsort(nmis)]` (line 40), true = missing. -/
def rowPat {n p : ℕ} (M : MissMatrix n p) (i : Fin n) : List Bool :=
  (colOrder M).map (fun j => M i j)

/-- All row patterns, one per dataset row (the rows of the reordered
indicator that lines 41-45 key on). -/
def allPats {n p : ℕ} (M : MissMatrix n p) : List (List Bool) :=
  (List.finRange n).map (rowPat M)

/-- Lexicographic order on equal-length 0/1 pattern rows, false (0) before
true (1): the order of the digit-string keys of line 42 and of the
ascending group keys `pandas.groupby(cols)` sorts by (line 45). -/
def patLe : List Bool → List Bool → Bool
  | [], [] => true
  | [], _ :: _ => true
  | _ :: _, [] => false
  | a :: as, b :: bs => (!a && b) || (a == b && patLe as bs)

/-- The distinct row patterns in the ascending order `groupby` emits them. -/
def sortedPats {n p : ℕ} (M : MissMatrix n p) : List (List Bool) :=
  List.insertionSort (fun a b => patLe a b = true) (allPats M).dedup

/-- Output of `md_pattern` (lines 44-49): the labels attached to the
variable columns, and one row `(count, observed-coded pattern, nmis)` per
distinct pattern.  The code attaches the caller's `cols` in their ORIGINAL
order (lines 44 and 46) even though the underlying columns were permuted by
`colOrder` on line 40; the pattern entries here follow the permuted
positional order, exactly as the returned frame's columns do.  `count` is
the group size, `nmis` the pattern's number of missing entries (line 47,
computed before the coding flip of line 48), and the pattern is flipped to
1 = observed (line 48). -/
def md_pattern {n p : ℕ} (M : MissMatrix n p) (cols : List String) :
    List String × List (ℕ × List Bool × ℕ) :=
  (cols,
    (sortedPats M).map
      (fun pt => ((allPats M).count pt, pt.map (fun b => !b), pt.count true)))

theorem length_of_mem_sortedPats {n p : ℕ} (M : MissMatrix n p)
    {pt : List Bool} (hpt : pt ∈ sortedPats M) : pt.length = p := by
  have h1 : pt ∈ (allPats M).dedup :=
    ((List.perm_insertionSort _ _).mem_iff).mp hpt
  have h2 : pt ∈ allPats M := (List.mem_dedup).mp h1
  rcases List.mem_map.mp h2 with ⟨i, _, hi⟩
  have hlen : (colOrder M).length = p := by
    have := (List.perm_insertionSort
      (fun a b => nmisCol M a < nmisCol M b ∨
        (nmisCol M a = nmisCol M b ∧ a ≤ b)) (List.finRange p)).length_eq
    simp only [colOrder, List.length_finRange] at this
    exact this
  calc pt.length = (rowPat M i).length := by rw [hi]
    _ = (colOrder M).length := by simp [rowPat]
    _ = p := hlen

theorem count_list_bool_instances (pt : List Bool) (l : List (List Bool)) :
    l.count pt = @List.count _ instBEqOfDecidableEq pt l := by
  induction l with
  | nil => rfl
  | cons a as ih =>
    rw [List.count_cons, @List.count_cons _ instBEqOfDecidableEq, ih]
    simp [beq_iff_eq]

theorem count_true_map_not (l : List Bool) :
    (l.map (fun b => !b)).count true = l.length - l.count true := by
  induction l with
  | nil => simp
  | cons a as ih =>
    have hle : as.count true ≤ as.length := List.count_le_length _ _
    cases a
    · simp [List.count_cons, ih]
      omega
    · simp [List.count_cons, ih]

/-- C3: the `count` column of `md_pattern` sums to `n`, and in every output
row `nmis` equals `p` minus the number of 1s among that row's variable
columns. -/
theorem md_pattern_count_sum_and_nmis {n p : ℕ} (M : MissMatrix n p)
    (cols : List String) :
    (((md_pattern M cols).2.map (fun row => row.1)).sum = n) ∧
      (∀ row ∈ (md_pattern M cols).2,
        row.2.2 = p - row.2.1.count true) := by
  constructor
  · have hperm : List.Perm (sortedPats M) ((allPats M).dedup) :=
      List.perm_insertionSort _ _
    have hmap : List.Perm ((sortedPats M).map ((allPats M).count ·))
        (((allPats M).dedup).map ((allPats M).count ·)) := hperm.map _
    have hsum1 : ((sortedPats M).map ((allPats M).count ·)).sum =
        (((allPats M).dedup).map ((allPats M).count ·)).sum := hmap.sum_eq
    have hsum2 : (((allPats M).dedup).map ((allPats M).count ·)).sum =
        (allPats M).length := by
      have h := List.sum_map_count_dedup_eq_length (allPats M)
      have hfun : ((allPats M).count ·) =
          (fun x => @List.count _ instBEqOfDecidableEq x (allPats M)) := by
        funext x
        exact count_list_bool_instances x (allPats M)
      rw [hfun]
      exact h
    have hlen : (allPats M).length = n := by simp [allPats]
    calc ((md_pattern M cols).2.map (fun row => row.1)).sum
        = ((sortedPats M).map ((allPats M).count ·)).sum := by
          simp only [md_pattern, List.map_map]
          rfl
      _ = n := by rw [hsum1, hsum2, hlen]
  · intro row hrow
    rcases List.mem_map.mp hrow with ⟨pt, hpt, hrow⟩
    have hlen : pt.length = p := length_of_mem_sortedPats M hpt
    have hle : pt.count true ≤ pt.length := List.count_le_length _ _
    subst hrow
    simp only [count_true_map_not, hlen]
    omega

/- Concrete datasets used as witnesses and counterexamples. -/

/-- One row, two variables; variable 0 is missing, variable 1 observed. -/
def exMislabel : MissMatrix 1 2 := ![![true, false]]

/-- One row, two variables, everything observed. -/
def fullObs12 : MissMatrix 1 2 := fun _ _ => false

/-- One row, two variables, everything missing. -/
def fullMiss12 : MissMatrix 1 2 := fun _ _ => true

/-- C4 (evaluation at the failing input): `md_pattern` reorders the data
columns by ascending missingness (here to [variable 1, variable 0]) but
attaches the caller's labels in their original order, so the output column
at position 0 — labeled "a" — holds the indicator of variable "b": it reads
1 (observed) although variable "a" (index 0) is missing in the only row. -/
theorem md_pattern_mislabels_columns :
    colOrder exMislabel = [1, 0] ∧
    (md_pattern exMislabel ["a", "b"]).1 = ["a", "b"] ∧
    (md_pattern exMislabel ["a", "b"]).2 = [(1, [true, false], 1)] ∧
    exMislabel 0 0 = true := by decide

/- Embedding of `flux` (patterns.py lines 138-156) and its ingredients. -/

/-- Number of rows in which variable `j` is observed. -/
def obsCount {n p : ℕ} (M : MissMatrix n p) (j : Fin p) : ℕ :=
  ∑ i, obsInd M i j

/-- `pobs = np.mean(np.logical_not(_is_null(data)), axis=0)` (line 150):
the observed count over the row count; numpy's mean of an empty axis
(n = 0) is NaN, matching `npdiv`. -/
def pobs {n p : ℕ} (M : MissMatrix n p) (j : Fin p) : RVal :=
  npdiv (obsCount M j) n

/-- `ainb`: `row_mean` applied to each row of the inbound matrix (lines
147 and 151): `np.nansum(row) / (len(row) - 1)` with `len(row) = p`. -/
def ainb {n p : ℕ} (M : MissMatrix n p) (j : Fin p) : RVal :=
  npdivQ (∑ k, nanToZero (inbound M j k)) (p - 1)

/-- `aout`: `row_mean` applied to each row of the outbound matrix (lines
147 and 152). -/
def aout {n p : ℕ} (M : MissMatrix n p) (j : Fin p) : RVal :=
  npdivQ (∑ k, nanToZero (outbound M j k)) (p - 1)

/-- Column order of the frame built on lines 155-156: the insertion order
of `dict(pobs=..., influx=..., outflux=..., ainb=..., aout=...)`. -/
def fluxColumns : List String := ["pobs", "influx", "outflux", "ainb", "aout"]

/-- The labeled summary table `flux` returns: `pd.DataFrame(res, index=cols)`. -/
structure FluxTable (p : ℕ) : Type where
  index : List String
  columns : List String
  entries : Fin p → RVal × RVal × RVal × RVal × RVal

/-- `flux(data, cols)` (lines 138-156): one row per variable with the five
statistics, indexed by `cols`. -/
def flux {n p : ℕ} (M : MissMatrix n p) (cols : List String) : FluxTable p :=
  { index := cols
    columns := fluxColumns
    entries := fun j =>
      (pobs M j, influx M j, outflux M j, ainb M j, aout M j) }

/- C2: degenerate fully-observed datasets. -/

/-- C2 counterexample: on a fully-observed 1-row, 2-column dataset the
claim fails — `outflux` is NaN (0/0), not 1, and `outbound` entries are 0,
not NaN. -/
theorem fully_observed_claim_fails :
    ¬ ((∀ j, influx fullObs12 j = RVal.val 0) ∧
       (∀ j, outflux fullObs12 j = RVal.val 1) ∧
       (∀ j k, inbound fullObs12 j k = RVal.nan) ∧
       (∀ j k, outbound fullObs12 j k = RVal.nan)) := by
  intro h
  have h1 : outflux fullObs12 0 = RVal.val 1 := h.2.1 0
  have h2 : outfluxDenom fullObs12 0 = 0 := by decide
  rw [outflux, h2] at h1
  simp [npdiv] at h1

/-- C2 (amended): on a fully-observed dataset with at least one row,
`influx` is 0 for every variable, `outflux` is NaN for every variable
(its denominator row-sum(rm + mm) is 0), every `inbound` entry is NaN, and
every `outbound` entry is 0. -/
theorem fully_observed_coeffs {n p : ℕ} (M : MissMatrix n p)
    (hobs : ∀ i j, M i j = false) (hn : 1 ≤ n) :
    (∀ j, influx M j = RVal.val 0) ∧
      (∀ j, outflux M j = RVal.nan) ∧
      (∀ j k, inbound M j k = RVal.nan) ∧
      (∀ j k, outbound M j k = RVal.val 0) := by
  have hmis : ∀ i j, misInd M i j = 0 := by
    intro i j
    simp [misInd, hobs]
  have hob : ∀ i j, obsInd M i j = 1 := by
    intro i j
    simp [obsInd, hobs]
  have hmr : ∀ j k, mr M j k = 0 := by
    intro j k
    simp [mr, hmis]
  have hrm : ∀ j k, rm M j k = 0 := by
    intro j k
    simp [rm, hmis]
  have hmm : ∀ j k, mm M j k = 0 := by
    intro j k
    simp [mm, hmis]
  have hrr : ∀ j k, rr M j k = n := by
    intro j k
    simp [rr, hob]
  refine ⟨?_, ?_, ?_, ?_⟩
  · intro j
    have hden : influxDenom M j = p * n := by
      simp [influxDenom, hmr, hrr, Finset.sum_const, Finset.card_univ]
    have hnum : influxNum M j = 0 := by
      simp [influxNum, hmr]
    have hpn : p * n ≠ 0 := by
      have hp : 0 < p := j.pos
      positivity
    simp [influx, hnum, hden, npdiv, hpn]
  · intro j
    have hden : outfluxDenom M j = 0 := by
      simp [outfluxDenom, hrm, hmm]
    simp [outflux, hden, npdiv]
  · intro j k
    simp [inbound, hmr, hmm, npdiv]
  · intro j k
    have hn0 : n ≠ 0 := by omega
    simp [outbound, hrm, hrr, npdiv, hn0]

/-- C2 witness: the amended statement holds at the concrete fully-observed
1×2 dataset. -/
theorem fully_observed_coeffs_witness :
    (∀ i j, fullObs12 i j = false) ∧ 1 ≤ 1 ∧
      ((∀ j, influx fullObs12 j = RVal.val 0) ∧
        (∀ j, outflux fullObs12 j = RVal.nan) ∧
        (∀ j k, inbound fullObs12 j k = RVal.nan) ∧
        (∀ j k, outbound fullObs12 j k = RVal.val 0)) :=
  ⟨fun _ _ => rfl, le_refl 1,
    fully_observed_coeffs fullObs12 (fun _ _ => rfl) (le_refl 1)⟩

/- C5: degenerate fully-missing datasets. -/

/-- C5 counterexample: on a fully-missing 1-row, 2-column dataset the claim
fails — `influx` is NaN (0/0), not 1. -/
theorem fully_missing_claim_fails :
    ¬ ((∀ j, influx fullMiss12 j = RVal.val 1) ∧
       (∀ j, outflux fullMiss12 j = RVal.val 0)) := by
  intro h
  have h1 : influx fullMiss12 0 = RVal.val 1 := h.1 0
  have h2 : influxDenom fullMiss12 0 = 0 := by decide
  rw [influx, h2] at h1
  simp [npdiv] at h1

/-- C5 (amended): on a fully-missing dataset with at least one row,
`influx` is NaN for every variable (its denominator row-sum(mr + rr) is 0)
and `outflux` is 0 for every variable. -/
theorem fully_missing_coeffs {n p : ℕ} (M : MissMatrix n p)
    (hmiss : ∀ i j, M i j = true) (hn : 1 ≤ n) :
    (∀ j, influx M j = RVal.nan) ∧ (∀ j, outflux M j = RVal.val 0) := by
  have hmis : ∀ i j, misInd M i j = 1 := by
    intro i j
    simp [misInd, hmiss]
  have hob : ∀ i j, obsInd M i j = 0 := by
    intro i j
    simp [obsInd, hmiss]
  have hmr : ∀ j k, mr M j k = 0 := by
    intro j k
    simp [mr, hob]
  have hrm : ∀ j k, rm M j k = 0 := by
    intro j k
    simp [rm, hob]
  have hmm : ∀ j k, mm M j k = n := by
    intro j k
    simp [mm, hmis]
  have hrr : ∀ j k, rr M j k = 0 := by
    intro j k
    simp [rr, hob]
  constructor
  · intro j
    have hden : influxDenom M j = 0 := by
      simp [influxDenom, hmr, hrr]
    simp [influx, hden, npdiv]
  · intro j
    have hden : outfluxDenom M j = p * n := by
      simp [outfluxDenom, hrm, hmm, Finset.sum_const, Finset.card_univ]
    have hnum : outfluxNum M j = 0 := by
      simp [outfluxNum, hrm]
    have hpn : p * n ≠ 0 := by
      have hp : 0 < p := j.pos
      positivity
    simp [outflux, hnum, hden, npdiv, hpn]

/-- C5 witness: the amended statement holds at the concrete fully-missing
1×2 dataset. -/
theorem fully_missing_coeffs_witness :
    (∀ i j, fullMiss12 i j = true) ∧ 1 ≤ 1 ∧
      ((∀ j, influx fullMiss12 j = RVal.nan) ∧
        (∀ j, outflux fullMiss12 j = RVal.val 0)) :=
  ⟨fun _ _ => rfl, le_refl 1,
    fully_missing_coeffs fullMiss12 (fun _ _ => rfl) (le_refl 1)⟩

/- Shared helper lemmas on `npdiv` and the pair matrices. -/

/-- Values of `flux` statistics are NaN or lie in the unit interval. -/
def unitOrNaN (v : RVal) : Prop :=
  v = RVal.nan ∨ ∃ q : ℚ, v = RVal.val q ∧ 0 ≤ q ∧ q ≤ 1

theorem npdiv_unitOrNaN {a b : ℕ} (h : a ≤ b) : unitOrNaN (npdiv a b) := by
  unfold npdiv unitOrNaN
  by_cases hb : b = 0
  · simp [hb]
  · simp only [hb, if_false]
    right
    refine ⟨_, rfl, ?_, ?_⟩
    · positivity
    · rw [div_le_one (by positivity)]
      exact_mod_cast h

theorem nanToZero_npdiv_nonneg (a b : ℕ) : 0 ≤ nanToZero (npdiv a b) := by
  unfold npdiv
  by_cases hb : b = 0
  · simp [hb, nanToZero]
  · simp only [hb, if_false, nanToZero]
    positivity

theorem nanToZero_npdiv_le_one {a b : ℕ} (h : a ≤ b) :
    nanToZero (npdiv a b) ≤ 1 := by
  unfold npdiv
  by_cases hb : b = 0
  · simp [hb, nanToZero]
  · simp only [hb, if_false, nanToZero]
    rw [div_le_one (by positivity)]
    exact_mod_cast h

theorem npdiv_zero_cases (b : ℕ) :
    (npdiv 0 b = RVal.nan ∨ npdiv 0 b = RVal.val 0) ∧
      nanToZero (npdiv 0 b) = 0 := by
  unfold npdiv
  by_cases hb : b = 0
  · simp [hb, nanToZero]
  · simp [hb, nanToZero]

theorem mr_diag {n p : ℕ} (M : MissMatrix n p) (j : Fin p) : mr M j j = 0 := by
  unfold mr
  simp [misInd_mul_obsInd_self]

theorem rm_diag {n p : ℕ} (M : MissMatrix n p) (j : Fin p) : rm M j j = 0 := by
  unfold rm
  have h : ∀ i, obsInd M i j * misInd M i j = 0 := by
    intro i
    rw [mul_comm]
    exact misInd_mul_obsInd_self M i j
  simp [h]

theorem obsCount_le {n p : ℕ} (M : MissMatrix n p) (j : Fin p) :
    obsCount M j ≤ n := by
  have h : ∀ i : Fin n, obsInd M i j ≤ 1 := by
    intro i
    unfold obsInd
    split <;> omega
  calc obsCount M j ≤ ∑ _i : Fin n, 1 := Finset.sum_le_sum fun i _ => h i
    _ = n := by simp

theorem influxNum_le_denom {n p : ℕ} (M : MissMatrix n p) (j : Fin p) :
    influxNum M j ≤ influxDenom M j :=
  Finset.sum_le_sum fun _k _ => Nat.le_add_right _ _

theorem outfluxNum_le_denom {n p : ℕ} (M : MissMatrix n p) (j : Fin p) :
    outfluxNum M j ≤ outfluxDenom M j :=
  Finset.sum_le_sum fun _k _ => Nat.le_add_right _ _

theorem inbound_diag_eq {n p : ℕ} (M : MissMatrix n p) (j : Fin p) :
    inbound M j j = npdiv 0 (0 + mm M j j) := by
  rw [inbound, mr_diag]

theorem outbound_diag_eq {n p : ℕ} (M : MissMatrix n p) (j : Fin p) :
    outbound M j j = npdiv 0 (0 + rr M j j) := by
  rw [outbound, rm_diag]

theorem nanToZero_inbound_diag {n p : ℕ} (M : MissMatrix n p) (j : Fin p) :
    nanToZero (inbound M j j) = 0 := by
  rw [inbound_diag_eq]
  exact (npdiv_zero_cases _).2

theorem nanToZero_outbound_diag {n p : ℕ} (M : MissMatrix n p) (j : Fin p) :
    nanToZero (outbound M j j) = 0 := by
  rw [outbound_diag_eq]
  exact (npdiv_zero_cases _).2

/-- C10: the diagonal of the inbound and of the outbound matrix is 0 or NaN
(a row cannot be simultaneously missing and observed in the same variable,
so `mr[j,j] = rm[j,j] = 0`), and it therefore contributes nothing nonzero
to the NaN-as-zero row sums that `flux` uses for `ainb` and `aout`. -/
theorem inbound_outbound_diag {n p : ℕ} (M : MissMatrix n p) (j : Fin p) :
    mr M j j = 0 ∧ rm M j j = 0 ∧
      (inbound M j j = RVal.nan ∨ inbound M j j = RVal.val 0) ∧
      (outbound M j j = RVal.nan ∨ outbound M j j = RVal.val 0) ∧
      nanToZero (inbound M j j) = 0 ∧ nanToZero (outbound M j j) = 0 := by
  refine ⟨mr_diag M j, rm_diag M j, ?_, ?_,
    nanToZero_inbound_diag M j, nanToZero_outbound_diag M j⟩
  · rw [inbound_diag_eq]
    exact (npdiv_zero_cases _).1
  · rw [outbound_diag_eq]
    exact (npdiv_zero_cases _).1

/- Embedding of the Dimension Validator and the decorated entry points. -/

/-- Error raised by the Dimension Validator. -/
inductive PatternsError : Type where
  | dimensionError : PatternsError
deriving DecidableEq

/-- Modelled from the spec: the `check_dimensions` decorator lives in
`autoimpute/utils/checks.py`, which is not among the sources here.  Per the
spec's Dimension Validator contract it fails with a `DimensionError` when
the dataset has fewer than 2 columns, before the wrapped statistic runs,
and otherwise passes the dataset through unchanged. -/
def check_dimensions {α : Type} (p : ℕ) (f : Unit → α) : Except PatternsError α :=
  if p < 2 then Except.error PatternsError.dimensionError else Except.ok (f ())

/-- `md_pairs` with its `@check_dimensions` decorator. -/
def md_pairs_checked {n p : ℕ} (M : MissMatrix n p) :=
  check_dimensions p (fun _ => md_pairs M)

/-- `md_pattern` with its `@check_dimensions` decorator. -/
def md_pattern_checked {n p : ℕ} (M : MissMatrix n p) (cols : List String) :=
  check_dimensions p (fun _ => md_pattern M cols)

/-- `inbound(data)`: undecorated itself, but it calls `md_pairs` (through
`get_stat_for`) before producing anything, so the validator's error
propagates and no partial output exists. -/
def inbound_checked {n p : ℕ} (M : MissMatrix n p) :=
  check_dimensions p (fun _ => fun j k => inbound M j k)

/-- `outbound(data)`: error propagation as for `inbound`. -/
def outbound_checked {n p : ℕ} (M : MissMatrix n p) :=
  check_dimensions p (fun _ => fun j k => outbound M j k)

/-- `influx(data)`: error propagation as for `inbound`. -/
def influx_checked {n p : ℕ} (M : MissMatrix n p) :=
  check_dimensions p (fun _ => fun j => influx M j)

/-- `outflux(data)`: error propagation as for `inbound`. -/
def outflux_checked {n p : ℕ} (M : MissMatrix n p) :=
  check_dimensions p (fun _ => fun j => outflux M j)

/-- `flux(data, cols)`: calls `md_pairs` on line 148 before building any
column, so the validator's error propagates and no partial table exists. -/
def flux_checked {n p : ℕ} (M : MissMatrix n p) (cols : List String) :=
  check_dimensions p (fun _ => flux M cols)

/-- C7: on a dataset with fewer than 2 columns every public statistic
raises `DimensionError` and produces no result. -/
theorem single_column_raises_dimension_error {n p : ℕ} (M : MissMatrix n p)
    (cols : List String) (hp : p < 2) :
    md_pairs_checked M = Except.error PatternsError.dimensionError ∧
      md_pattern_checked M cols = Except.error PatternsError.dimensionError ∧
      inbound_checked M = Except.error PatternsError.dimensionError ∧
      outbound_checked M = Except.error PatternsError.dimensionError ∧
      influx_checked M = Except.error PatternsError.dimensionError ∧
      outflux_checked M = Except.error PatternsError.dimensionError ∧
      flux_checked M cols = Except.error PatternsError.dimensionError := by
  refine ⟨?_, ?_, ?_, ?_, ?_, ?_, ?_⟩ <;>
    simp [md_pairs_checked, md_pattern_checked, inbound_checked,
      outbound_checked, influx_checked, outflux_checked, flux_checked,
      check_dimensions, hp]

/-- One row, one variable, observed: a single-column dataset. -/
def oneCol : MissMatrix 1 1 := fun _ _ => false

/-- C7 witness: the single-column dataset is rejected everywhere. -/
theorem single_column_raises_witness :
    1 < 2 ∧
      (md_pairs_checked oneCol = Except.error PatternsError.dimensionError ∧
        md_pattern_checked oneCol ["a"] =
          Except.error PatternsError.dimensionError ∧
        inbound_checked oneCol = Except.error PatternsError.dimensionError ∧
        outbound_checked oneCol = Except.error PatternsError.dimensionError ∧
        influx_checked oneCol = Except.error PatternsError.dimensionError ∧
        outflux_checked oneCol = Except.error PatternsError.dimensionError ∧
        flux_checked oneCol ["a"] = Except.error PatternsError.dimensionError) :=
  ⟨by norm_num,
    single_column_raises_dimension_error oneCol ["a"] (by norm_num)⟩

/- C6: the NaN policy for zero denominators. -/

/-- C6: a zero denominator in any of the four coefficient formulas is the
0/0 case (the numerator is forced to 0 with it), produces NaN instead of
an error, and `flux` still returns complete `ainb`/`aout` columns in which
the NaN entries of the inbound/outbound rows contribute zero to the
NaN-safe row sums. -/
theorem zero_denominator_nan_policy {n p : ℕ} (M : MissMatrix n p)
    (hp : 2 ≤ p) :
    (∀ j k, mr M j k + mm M j k = 0 →
      mr M j k = 0 ∧ inbound M j k = RVal.nan) ∧
      (∀ j k, rm M j k + rr M j k = 0 →
        rm M j k = 0 ∧ outbound M j k = RVal.nan) ∧
      (∀ j, influxDenom M j = 0 →
        influxNum M j = 0 ∧ influx M j = RVal.nan) ∧
      (∀ j, outfluxDenom M j = 0 →
        outfluxNum M j = 0 ∧ outflux M j = RVal.nan) ∧
      (∀ j, ainb M j =
        RVal.val ((∑ k, nanToZero (inbound M j k)) / ((p - 1 : ℕ) : ℚ))) ∧
      (∀ j, aout M j =
        RVal.val ((∑ k, nanToZero (outbound M j k)) / ((p - 1 : ℕ) : ℚ))) := by
  have hp1 : p - 1 ≠ 0 := by omega
  refine ⟨?_, ?_, ?_, ?_, ?_, ?_⟩
  · intro j k h
    exact ⟨by omega, by simp [inbound, h, npdiv]⟩
  · intro j k h
    exact ⟨by omega, by simp [outbound, h, npdiv]⟩
  · intro j h
    have hnum := influxNum_le_denom M j
    exact ⟨by omega, by simp [influx, h, npdiv]⟩
  · intro j h
    have hnum := outfluxNum_le_denom M j
    exact ⟨by omega, by simp [outflux, h, npdiv]⟩
  · intro j
    simp [ainb, npdivQ, hp1]
  · intro j
    simp [aout, npdivQ, hp1]

/-- C6 witness: the NaN policy at the concrete 1×2 dataset with one
missing cell. -/
theorem zero_denominator_nan_policy_witness :
    2 ≤ 2 ∧
      ((∀ j k, mr exMislabel j k + mm exMislabel j k = 0 →
        mr exMislabel j k = 0 ∧ inbound exMislabel j k = RVal.nan) ∧
        (∀ j k, rm exMislabel j k + rr exMislabel j k = 0 →
          rm exMislabel j k = 0 ∧ outbound exMislabel j k = RVal.nan) ∧
        (∀ j, influxDenom exMislabel j = 0 →
          influxNum exMislabel j = 0 ∧ influx exMislabel j = RVal.nan) ∧
        (∀ j, outfluxDenom exMislabel j = 0 →
          outfluxNum exMislabel j = 0 ∧ outflux exMislabel j = RVal.nan) ∧
        (∀ j, ainb exMislabel j =
          RVal.val ((∑ k, nanToZero (inbound exMislabel j k)) /
            ((2 - 1 : ℕ) : ℚ))) ∧
        (∀ j, aout exMislabel j =
          RVal.val ((∑ k, nanToZero (outbound exMislabel j k)) /
            ((2 - 1 : ℕ) : ℚ)))) :=
  ⟨le_refl 2, zero_denominator_nan_policy exMislabel (le_refl 2)⟩

/- C8: contents of the flux table. -/

/-- C8: `flux` returns a table indexed by `cols`, with columns in order
[pobs, influx, outflux, ainb, aout]; `pobs` is the fraction of rows in
which the variable is observed, and `ainb`/`aout` are the NaN-as-zero row
sums of the inbound/outbound matrix divided by `p - 1`. -/
theorem flux_table_contents {n p : ℕ} (M : MissMatrix n p)
    (cols : List String) (hn : 1 ≤ n) (hp : 2 ≤ p) :
    (flux M cols).index = cols ∧
      (flux M cols).columns = ["pobs", "influx", "outflux", "ainb", "aout"] ∧
      ∀ j, (flux M cols).entries j =
        (RVal.val ((obsCount M j : ℚ) / (n : ℚ)),
          influx M j, outflux M j,
          RVal.val ((∑ k, nanToZero (inbound M j k)) / ((p - 1 : ℕ) : ℚ)),
          RVal.val ((∑ k, nanToZero (outbound M j k)) / ((p - 1 : ℕ) : ℚ))) := by
  have hn0 : n ≠ 0 := by omega
  have hp1 : p - 1 ≠ 0 := by omega
  refine ⟨rfl, rfl, ?_⟩
  intro j
  simp [flux, pobs, ainb, aout, npdiv, npdivQ, hn0, hp1]

/-- C8 witness: the flux table contents at the concrete 1×2 dataset with
one missing cell. -/
theorem flux_table_contents_witness :
    1 ≤ 1 ∧ 2 ≤ 2 ∧
      ((flux exMislabel ["a", "b"]).index = ["a", "b"] ∧
        (flux exMislabel ["a", "b"]).columns =
          ["pobs", "influx", "outflux", "ainb", "aout"] ∧
        ∀ j, (flux exMislabel ["a", "b"]).entries j =
          (RVal.val ((obsCount exMislabel j : ℚ) / ((1 : ℕ) : ℚ)),
            influx exMislabel j, outflux exMislabel j,
            RVal.val ((∑ k, nanToZero (inbound exMislabel j k)) /
              ((2 - 1 : ℕ) : ℚ)),
            RVal.val ((∑ k, nanToZero (outbound exMislabel j k)) /
              ((2 - 1 : ℕ) : ℚ)))) :=
  ⟨le_refl 1, le_refl 2,
    flux_table_contents exMislabel ["a", "b"] (le_refl 1) (le_refl 2)⟩

/- C9: all flux entries are NaN or in the unit interval. -/

theorem npdivQ_unitOrNaN {s : ℚ} {b : ℕ} (h0 : 0 ≤ s) (h1 : s ≤ (b : ℚ)) :
    unitOrNaN (npdivQ s b) := by
  unfold npdivQ unitOrNaN
  by_cases hb : b = 0
  · simp [hb]
  · simp only [hb, if_false]
    right
    have hbpos : (0 : ℚ) < (b : ℚ) :=
      Nat.cast_pos.mpr (Nat.pos_of_ne_zero hb)
    exact ⟨_, rfl, div_nonneg h0 (le_of_lt hbpos), (div_le_one hbpos).mpr h1⟩

theorem sum_nanToZero_row_le {p : ℕ} (f : Fin p → RVal) (j : Fin p)
    (hdiag : nanToZero (f j) = 0) (hle : ∀ k, nanToZero (f k) ≤ 1) :
    ∑ k, nanToZero (f k) ≤ ((p - 1 : ℕ) : ℚ) := by
  calc ∑ k, nanToZero (f k)
      = ∑ k ∈ Finset.univ.erase j, nanToZero (f k) + nanToZero (f j) :=
        (Finset.sum_erase_add _ _ (Finset.mem_univ j)).symm
    _ = ∑ k ∈ Finset.univ.erase j, nanToZero (f k) := by
        rw [hdiag, add_zero]
    _ ≤ (Finset.univ.erase j).card • (1 : ℚ) :=
        Finset.sum_le_card_nsmul _ _ _ (fun k _ => hle k)
    _ = ((p - 1 : ℕ) : ℚ) := by
        rw [Finset.card_erase_of_mem (Finset.mem_univ j), Finset.card_univ,
          Fintype.card_fin]
        simp

/-- C9: every entry of the five flux statistics (pobs, influx, outflux,
ainb, aout) is NaN or a value in the closed interval [0, 1]. -/
theorem flux_entries_unit_interval {n p : ℕ} (M : MissMatrix n p)
    (cols : List String) (_hp : 2 ≤ p) (j : Fin p) :
    unitOrNaN ((flux M cols).entries j).1 ∧
      unitOrNaN ((flux M cols).entries j).2.1 ∧
      unitOrNaN ((flux M cols).entries j).2.2.1 ∧
      unitOrNaN ((flux M cols).entries j).2.2.2.1 ∧
      unitOrNaN ((flux M cols).entries j).2.2.2.2 := by
  have hnonneg : ∀ g : Fin p → Fin p → RVal, (∀ a b, ∃ x y, g a b = npdiv x y) →
      0 ≤ ∑ k, nanToZero (g j k) := by
    intro g hg
    apply Finset.sum_nonneg
    intro k _
    rcases hg j k with ⟨x, y, hxy⟩
    rw [hxy]
    exact nanToZero_npdiv_nonneg x y
  refine ⟨?_, ?_, ?_, ?_, ?_⟩
  · exact npdiv_unitOrNaN (obsCount_le M j)
  · exact npdiv_unitOrNaN (influxNum_le_denom M j)
  · exact npdiv_unitOrNaN (outfluxNum_le_denom M j)
  · refine npdivQ_unitOrNaN ?_ ?_
    · exact hnonneg _ (fun a b => ⟨_, _, rfl⟩)
    · refine sum_nanToZero_row_le _ j ?_ ?_
      · exact nanToZero_inbound_diag M j
      · intro k
        exact nanToZero_npdiv_le_one (Nat.le_add_right _ _)
  · refine npdivQ_unitOrNaN ?_ ?_
    · exact hnonneg _ (fun a b => ⟨_, _, rfl⟩)
    · refine sum_nanToZero_row_le _ j ?_ ?_
      · exact nanToZero_outbound_diag M j
      · intro k
        exact nanToZero_npdiv_le_one (Nat.le_add_right _ _)

/-- C9 witness: the unit-interval property at the concrete 1×2 dataset
with one missing cell. -/
theorem flux_entries_unit_interval_witness :
    2 ≤ 2 ∧
      (unitOrNaN ((flux exMislabel ["a", "b"]).entries 0).1 ∧
        unitOrNaN ((flux exMislabel ["a", "b"]).entries 0).2.1 ∧
        unitOrNaN ((flux exMislabel ["a", "b"]).entries 0).2.2.1 ∧
        unitOrNaN ((flux exMislabel ["a", "b"]).entries 0).2.2.2.1 ∧
        unitOrNaN ((flux exMislabel ["a", "b"]).entries 0).2.2.2.2) :=
  ⟨le_refl 2, flux_entries_unit_interval exMislabel ["a", "b"] (le_refl 2) 0⟩

end Autoimpute
